import Mathlib

/-!
Verification of the statistical derivation pipeline of the
`Hawk-Jo/baseball_analysis` repository: the metric derivers for hitters
(`02_analysis.py`) and pitchers (`04_pitcher_analysis.py`), the pitcher role
classifier, the innings-notation parser (`03_crawl_pitcher.py`), the
qualification filters (`01_crawl_kbo.py`, `03_crawl_pitcher.py`), and the
cross-season FIP comparator.

Numeric table cells are modelled as exact rationals.  Because the scripts
compute on pandas/numpy float columns, divisions by zero do not raise: they
produce `inf`/`-inf`/`NaN`.  The type `PVal` models this value space (a
finite rational, positive or negative infinity, or NaN) together with the
arithmetic the scripts perform on derived columns.
-/

/-- A pandas/numpy numeric cell value: finite, `inf`, `-inf`, or `NaN`. -/
inductive PVal where
  | num (q : ℚ)
  | pinf
  | ninf
  | nan
deriving DecidableEq, Repr

/-- Division of two finite values, with numpy float semantics at a zero
denominator: `x / 0` is `inf` for `x > 0`, `-inf` for `x < 0`, `NaN` for
`x = 0`. -/
def pdiv (n d : ℚ) : PVal :=
  if d = 0 then
    if n = 0 then PVal.nan else if 0 < n then PVal.pinf else PVal.ninf
  else PVal.num (n / d)

/-- Addition on pandas values (IEEE-style: `inf + -inf = NaN`, NaN absorbs). -/
def PVal.add : PVal → PVal → PVal
  | PVal.nan, _ => PVal.nan
  | _, PVal.nan => PVal.nan
  | PVal.num a, PVal.num b => PVal.num (a + b)
  | PVal.num _, PVal.pinf => PVal.pinf
  | PVal.pinf, PVal.num _ => PVal.pinf
  | PVal.num _, PVal.ninf => PVal.ninf
  | PVal.ninf, PVal.num _ => PVal.ninf
  | PVal.pinf, PVal.pinf => PVal.pinf
  | PVal.ninf, PVal.ninf => PVal.ninf
  | PVal.pinf, PVal.ninf => PVal.nan
  | PVal.ninf, PVal.pinf => PVal.nan

/-- Negation on pandas values. -/
def PVal.neg : PVal → PVal
  | PVal.num a => PVal.num (-a)
  | PVal.pinf => PVal.ninf
  | PVal.ninf => PVal.pinf
  | PVal.nan => PVal.nan

/-- Subtraction on pandas values. -/
def PVal.sub (a b : PVal) : PVal := a.add b.neg

/-- Multiplication of a pandas value by a finite scalar. -/
def PVal.mulQ : PVal → ℚ → PVal
  | PVal.num a, c => PVal.num (a * c)
  | PVal.pinf, c => if 0 < c then PVal.pinf else if c < 0 then PVal.ninf else PVal.nan
  | PVal.ninf, c => if 0 < c then PVal.ninf else if c < 0 then PVal.pinf else PVal.nan
  | PVal.nan, _ => PVal.nan

/-- Division on pandas values (NaN absorbs; a finite value over an infinity
is zero; indeterminate forms are NaN). -/
def PVal.div : PVal → PVal → PVal
  | PVal.nan, _ => PVal.nan
  | _, PVal.nan => PVal.nan
  | PVal.num a, PVal.num b => pdiv a b
  | PVal.pinf, PVal.num b => if 0 < b then PVal.pinf else if b < 0 then PVal.ninf else PVal.nan
  | PVal.ninf, PVal.num b => if 0 < b then PVal.ninf else if b < 0 then PVal.pinf else PVal.nan
  | PVal.num _, PVal.pinf => PVal.num 0
  | PVal.num _, PVal.ninf => PVal.num 0
  | PVal.pinf, PVal.pinf => PVal.nan
  | PVal.pinf, PVal.ninf => PVal.nan
  | PVal.ninf, PVal.pinf => PVal.nan
  | PVal.ninf, PVal.ninf => PVal.nan

/-- A raw/qualified hitter row of `data/ssg_hitters_qualified.csv`, with the
columns produced by `01_crawl_kbo.py` (`2B`, `3B` are written `d2B`, `d3B`
since a Lean identifier cannot start with a digit). -/
structure HitterRecord where
  name : String
  team : String
  season : ℤ
  AVG : ℚ
  G : ℚ
  PA : ℚ
  AB : ℚ
  R : ℚ
  H : ℚ
  d2B : ℚ
  d3B : ℚ
  HR : ℚ
  TB : ℚ
  RBI : ℚ
deriving DecidableEq, Repr

/-- The hitter row together with the derived columns added by
`02_analysis.py` lines 43-60 (`1B` is written `oneB`). -/
structure DerivedHitter where
  base : HitterRecord
  OBP_approx : PVal
  SLG : PVal
  OPS : PVal
  oneB : ℚ
  wOBA_approx : PVal
  ISO : PVal
deriving DecidableEq, Repr

/-- The hitter rate-stat deriver, translated from `02_analysis.py`
lines 43-60:
`df['OBP_approx'] = (df['H'] + (df['PA'] - df['AB'])) / df['PA']`,
`df['SLG'] = df['TB'] / df['AB']`, `df['OPS'] = df['OBP_approx'] + df['SLG']`,
`df['1B'] = df['H'] - df['2B'] - df['3B'] - df['HR']`,
`df['wOBA_approx'] = (0.89*df['1B'] + 1.27*df['2B'] + 1.62*df['3B'] + 2.10*df['HR']) / df['PA']`,
`df['ISO'] = df['SLG'] - df['AVG']`. -/
def calc_hitter_metrics (r : HitterRecord) : DerivedHitter :=
  let obp := pdiv (r.H + (r.PA - r.AB)) r.PA
  let slg := pdiv r.TB r.AB
  let oneB := r.H - r.d2B - r.d3B - r.HR
  { base := r
    OBP_approx := obp
    SLG := slg
    OPS := obp.add slg
    oneB := oneB
    wOBA_approx := pdiv (0.89 * oneB + 1.27 * r.d2B + 1.62 * r.d3B + 2.10 * r.HR) r.PA
    ISO := slg.sub (PVal.num r.AVG) }

/-- Columnwise derivation over the whole hitter table. -/
def calc_hitter_metrics_table (df : List HitterRecord) : List DerivedHitter :=
  df.map calc_hitter_metrics

/-- A raw/qualified pitcher row of `data/ssg_pitchers_qualified.csv`, with
the columns produced by `03_crawl_pitcher.py`. -/
structure PitcherRecord where
  name : String
  team : String
  season : ℤ
  ERA : ℚ
  G : ℚ
  W : ℚ
  L : ℚ
  SV : ℚ
  HLD : ℚ
  WPCT : ℚ
  IP : ℚ
  H : ℚ
  HR : ℚ
  BB : ℚ
  HBP : ℚ
  SO : ℚ
  R : ℚ
  ER : ℚ
  WHIP : ℚ
deriving DecidableEq, Repr

/-- Pitcher role: `starter` renders the source string for 선발, `reliever`
the source string 불펜. -/
inductive Role where
  | starter
  | reliever
deriving DecidableEq, Repr

/-- The role classifier `classify_role` of `04_pitcher_analysis.py`
lines 29-38: reliever when `SV >= 1 or HLD >= 1`; else starter when
`G > 0 and IP / G >= 4.0`; else reliever. -/
def classify_role (r : PitcherRecord) : Role :=
  if r.SV ≥ 1 ∨ r.HLD ≥ 1 then Role.reliever
  else if r.G > 0 ∧ r.IP / r.G ≥ 4.0 then Role.starter
  else Role.reliever

/-- The FIP constant `FIP_CONST = 3.20` of `04_pitcher_analysis.py` line 22. -/
def FIP_CONST : ℚ := 3.20

/-- The pitcher row together with the derived columns added by
`calc_pitcher_metrics` in `04_pitcher_analysis.py` lines 41-68. -/
structure DerivedPitcher where
  base : PitcherRecord
  role : Role
  K9 : PVal
  BB9 : PVal
  KBB : PVal
  FIP : PVal
  ERA_FIP_diff : PVal
  IP_per_G : PVal
deriving DecidableEq, Repr

/-- The pitcher rate-stat deriver `calc_pitcher_metrics` of
`04_pitcher_analysis.py` lines 41-68, one row at a time:
`df['K9'] = df['SO'] / df['IP'] * 9`, `df['BB9'] = df['BB'] / df['IP'] * 9`,
`df['KBB'] = df['SO'] / df['BB'].replace(0, np.nan)`,
`df['FIP'] = (13*df['HR'] + 3*(df['BB']+df['HBP']) - 2*df['SO']) / df['IP'] + FIP_CONST`,
`df['ERA_FIP_diff'] = df['ERA'] - df['FIP']`,
`df['IP_per_G'] = df['IP'] / df['G']`. -/
def calc_pitcher_metrics (r : PitcherRecord) : DerivedPitcher :=
  let fip := (pdiv (13 * r.HR + 3 * (r.BB + r.HBP) - 2 * r.SO) r.IP).add (PVal.num FIP_CONST)
  { base := r
    role := classify_role r
    K9 := (pdiv r.SO r.IP).mulQ 9
    BB9 := (pdiv r.BB r.IP).mulQ 9
    KBB := (PVal.num r.SO).div (if r.BB = 0 then PVal.nan else PVal.num r.BB)
    FIP := fip
    ERA_FIP_diff := (PVal.num r.ERA).sub fip
    IP_per_G := pdiv r.IP r.G }

/-- Columnwise derivation over the whole pitcher table (the source applies
`calc_pitcher_metrics` to the full frame; every derived cell depends only on
its own row). -/
def calc_pitcher_metrics_table (df : List PitcherRecord) : List DerivedPitcher :=
  df.map calc_pitcher_metrics

/-- Value of a list of decimal digit characters. -/
def digitsVal (cs : List Char) : ℕ :=
  cs.foldl (fun n c => n * 10 + (c.toNat - 48)) 0

/-- Python `str.strip()` on a character list: drop whitespace from both
ends. -/
def listTrim (cs : List Char) : List Char :=
  ((cs.dropWhile Char.isWhitespace).reverse.dropWhile Char.isWhitespace).reverse

/-- Split a character list on `'.'`, keeping empty parts, as Python
`str.split('.')` does (`"1.2"` gives `["1", "2"]`, `"."` gives
`["", ""]`). -/
def splitDot : List Char → List (List Char)
  | [] => [[]]
  | c :: rest =>
      if c = '.' then [] :: splitDot rest
      else
        match splitDot rest with
        | [] => [[c]]
        | p :: ps => (c :: p) :: ps

/-- Python `str.split()` with no separator: split on whitespace runs,
discarding empty tokens. -/
def splitWs : List Char → List (List Char)
  | [] => []
  | c :: rest =>
      if c.isWhitespace then splitWs rest
      else
        match splitWs rest with
        | [] => [[c]]
        | p :: ps =>
            if (rest.headD ' ').isWhitespace then [c] :: p :: ps
            else (c :: p) :: ps

/-- Model of the Python builtin `float()` on the decimal grammar the scripts
feed it: optional surrounding whitespace, optional sign, then digits with an
optional decimal point (`"42"`, `"3.5"`, `"-2."`, `".5"`).  Any other text
(in particular non-numeric text such as `"abc"` or `"1/3"`) raises
`ValueError`, modelled as `none`.  Exotic accepted forms (exponents,
`inf`/`nan`, underscores) are outside the grammar this repository produces
and are not modelled. -/
def pyFloatChars (s : List Char) : Option ℚ :=
  let t := listTrim s
  let sign : ℚ := if t.headD ' ' = '-' then -1 else 1
  let u := if t.headD ' ' = '-' ∨ t.headD ' ' = '+' then t.tail else t
  match splitDot u with
  | [ip] =>
      if ip ≠ [] ∧ ip.all Char.isDigit then some (sign * digitsVal ip)
      else none
  | [ip, fp] =>
      if (ip ≠ [] ∨ fp ≠ []) ∧ ip.all Char.isDigit ∧ fp.all Char.isDigit then
        some (sign * (digitsVal ip + digitsVal fp / 10 ^ fp.length))
      else none
  | _ => none

/-- The fraction-token table `frac_map = {'1/3': 0.33, '2/3': 0.67}` of
`parse_ip`, with `.get(_, 0)` defaulting to `0`. -/
def frac_map_get (s : List Char) : ℚ :=
  if s = '1' :: '/' :: '3' :: [] then 0.33
  else if s = '2' :: '/' :: '3' :: [] then 0.67
  else 0

/-- The innings-notation parser `parse_ip` of `03_crawl_pitcher.py`
lines 20-28.  `none` models a raised `ValueError` from `float()`:
the source strips the input; if it contains a space it splits it and
returns `float(parts[0]) + frac_map.get(parts[1], 0)`; otherwise it returns
`float(ip_str)` for non-empty input and `0.0` for empty input. -/
def parse_ip (s : String) : Option ℚ :=
  let t := listTrim s.toList
  if t.contains ' ' then
    let parts := splitWs t
    match pyFloatChars (parts.headD []) with
    | none => none
    | some whole => some (whole + frac_map_get (parts.getD 1 []))
  else if t ≠ [] then pyFloatChars t
  else some 0

/-- The hitter qualification filter of `01_crawl_kbo.py` line 125:
`df_qualified = df_all[df_all['PA'] >= 200]`. -/
def hitters_qualified (df : List HitterRecord) : List HitterRecord :=
  df.filter (fun r => 200 ≤ r.PA)

/-- The pitcher qualification filter of `03_crawl_pitcher.py` line 138:
`df_qualified = df_all[df_all['IP'] >= 15]`. -/
def pitchers_qualified (df : List PitcherRecord) : List PitcherRecord :=
  df.filter (fun r => 15 ≤ r.IP)

/-- Ordering of `(name, value)` entries by value, as `sort_values()` orders
a pandas Series. -/
def valLe (x y : String × ℚ) : Prop := x.2 ≤ y.2

instance : DecidableRel valLe := fun x y => inferInstanceAs (Decidable (x.2 ≤ y.2))

instance : IsTotal (String × ℚ) valLe := ⟨fun x y => le_total x.2 y.2⟩

instance : IsTrans (String × ℚ) valLe := ⟨fun _ _ _ h h2 => le_trans h h2⟩

/-- The cross-season comparator of `04_pitcher_analysis.py` lines 202-207,
over tables projected to `(선수명, metric)` pairs:
`common = set(df_2024['선수명']) & set(df_2025['선수명'])`, both frames are
restricted to `common` and indexed by name, and
`fip_change = (d25['FIP'] - d24['FIP']).sort_values()` aligns by name,
subtracts season A from season B, and sorts ascending. -/
def fip_change (a b : List (String × ℚ)) : List (String × ℚ) :=
  let common := (a.map Prod.fst).filter (fun n => (b.map Prod.fst).contains n)
  let deltas := common.filterMap (fun n =>
    match b.lookup n, a.lookup n with
    | some vb, some va => some (n, vb - va)
    | _, _ => none)
  deltas.insertionSort valLe

/-- A hitter fixture whose extra-base hits exceed its hits
(`2B + 3B + HR = 3 > 1 = H`), the inconsistent-data shape of the spec's
negative-singles scenario, with `PA = 4 > 0` and `AB = 3 > 0`. -/
def hitterBad : HitterRecord :=
  { name := "bad", team := "SSG", season := 2024, AVG := 1/3, G := 1, PA := 4,
    AB := 3, R := 1, H := 1, d2B := 1, d3B := 1, HR := 1, TB := 9, RBI := 1 }

/-- A hitter fixture at the excluded side of the qualification boundary. -/
def hitter199 : HitterRecord :=
  { name := "low", team := "SSG", season := 2024, AVG := 3/10, G := 60, PA := 199,
    AB := 180, R := 20, H := 54, d2B := 10, d3B := 1, HR := 5, TB := 81, RBI := 25 }

/-- A hitter fixture at the included side of the qualification boundary. -/
def hitter200 : HitterRecord :=
  { name := "high", team := "SSG", season := 2024, AVG := 3/10, G := 60, PA := 200,
    AB := 180, R := 20, H := 54, d2B := 10, d3B := 1, HR := 5, TB := 81, RBI := 25 }

/-- A pitcher fixture with every stat zero, used as a base for concrete
test records. -/
def basePitcher : PitcherRecord :=
  { name := "p", team := "SSG", season := 2024, ERA := 0, G := 0, W := 0, L := 0,
    SV := 0, HLD := 0, WPCT := 0, IP := 0, H := 0, HR := 0, BB := 0, HBP := 0,
    SO := 0, R := 0, ER := 0, WHIP := 0 }

/-- The spec's first role-classifier vector: `SV=5, HLD=0, G=50, IP=50`. -/
def pitcherSV5 : PitcherRecord := { basePitcher with SV := 5, G := 50, IP := 50 }

/-- The spec's second role-classifier vector: `SV=0, HLD=0, G=20, IP=120`. -/
def pitcherStarter : PitcherRecord := { basePitcher with G := 20, IP := 120 }

/-- The spec's third role-classifier vector: `SV=0, HLD=0, G=20, IP=40`. -/
def pitcherFallback : PitcherRecord := { basePitcher with G := 20, IP := 40 }

/-- A pitcher fixture that both saves games and averages 5 innings per
game (`SV = 3`, `G = 10`, `IP = 50`). -/
def pitcherBoth : PitcherRecord := { basePitcher with SV := 3, G := 10, IP := 50 }

/-- A qualified-shape pitcher fixture with positive innings and walks. -/
def pitcherQ : PitcherRecord :=
  { basePitcher with ERA := 4, G := 10, IP := 45, H := 40, HR := 5, BB := 9, HBP := 3, SO := 36, R := 22, ER := 20 }

/-- A pitcher fixture with `BB = 0` and strikeouts. -/
def pitcherBB0 : PitcherRecord := { basePitcher with G := 10, IP := 20, SO := 15 }

/-- A pitcher fixture with `SO = 0` and `BB = 2`. -/
def pitcherSO0 : PitcherRecord := { basePitcher with G := 10, IP := 20, BB := 2 }

/-- A pitcher fixture with `G = 0` but `IP = 15`. -/
def pitcherG0 : PitcherRecord := { basePitcher with IP := 15 }

/-- Claim C1: for every qualified hitter record with `PA > 0` and `AB > 0`
the hitter rate-stat deriver computes `OBP = (H + (PA - AB)) / PA`,
`SLG = TB / AB`, `OPS = OBP + SLG`, `1B = H - 2B - 3B - HR`,
`wOBA = (0.89*1B + 1.27*2B + 1.62*3B + 2.10*HR) / PA` and
`ISO = SLG - AVG`; the identities `OPS = OBP + SLG` and `ISO = SLG - AVG`
hold exactly, and when `2B + 3B + HR > H` the singles count `1B` is
negative and still feeds the `wOBA` formula without any error. -/
theorem hitter_rate_stats_C1 (r : HitterRecord)
    (hPA : 0 < r.PA) (hAB : 0 < r.AB) :
    (calc_hitter_metrics r).OBP_approx = PVal.num ((r.H + (r.PA - r.AB)) / r.PA) ∧
    (calc_hitter_metrics r).SLG = PVal.num (r.TB / r.AB) ∧
    (calc_hitter_metrics r).OPS =
      PVal.num ((r.H + (r.PA - r.AB)) / r.PA + r.TB / r.AB) ∧
    (calc_hitter_metrics r).OPS =
      ((calc_hitter_metrics r).OBP_approx).add ((calc_hitter_metrics r).SLG) ∧
    (calc_hitter_metrics r).oneB = r.H - r.d2B - r.d3B - r.HR ∧
    (calc_hitter_metrics r).wOBA_approx =
      PVal.num ((0.89 * (r.H - r.d2B - r.d3B - r.HR) + 1.27 * r.d2B +
        1.62 * r.d3B + 2.10 * r.HR) / r.PA) ∧
    (calc_hitter_metrics r).ISO = PVal.num (r.TB / r.AB - r.AVG) ∧
    (calc_hitter_metrics r).ISO =
      ((calc_hitter_metrics r).SLG).sub (PVal.num r.AVG) ∧
    (r.H < r.d2B + r.d3B + r.HR → (calc_hitter_metrics r).oneB < 0) := by
  have hPA0 : r.PA ≠ 0 := ne_of_gt hPA
  have hAB0 : r.AB ≠ 0 := ne_of_gt hAB
  refine ⟨?_, ?_, ?_, ?_, ?_, ?_, ?_, ?_, ?_⟩ <;>
    simp [calc_hitter_metrics, pdiv, hPA0, hAB0, PVal.add, PVal.sub, PVal.neg]
  · ring
  · intro h
    linarith

/-- Witness for C1 at the inconsistent fixture `hitterBad`: the hypotheses
hold there, the exact `OPS` identity holds, and the singles count is
negative yet `wOBA` is still the finite value given by the formula. -/
theorem hitter_rate_stats_C1_witness :
    (calc_hitter_metrics hitterBad).OPS =
      ((calc_hitter_metrics hitterBad).OBP_approx).add
        ((calc_hitter_metrics hitterBad).SLG) ∧
    (calc_hitter_metrics hitterBad).oneB < 0 ∧
    (calc_hitter_metrics hitterBad).wOBA_approx =
      PVal.num ((0.89 * (-2) + 1.27 * 1 + 1.62 * 1 + 2.10 * 1) / 4) := by
  have h := hitter_rate_stats_C1 hitterBad (by norm_num [hitterBad])
    (by norm_num [hitterBad])
  refine ⟨h.2.2.2.1, h.2.2.2.2.2.2.2.2 (by norm_num [hitterBad]), ?_⟩
  have hw := h.2.2.2.2.2.1
  rw [hw]
  norm_num [hitterBad]

/-- Claim C2: for every qualified pitcher record with `IP > 0` the pitcher
rate-stat deriver computes `K9 = SO/IP*9`, `BB9 = BB/IP*9`,
`FIP = (13*HR + 3*(BB+HBP) - 2*SO)/IP + FIP_CONST` with `FIP_CONST` the
fixed configured scalar `3.20`, and `ERA_FIP_diff = ERA - FIP`. -/
theorem pitcher_rate_stats_C2 (r : PitcherRecord) (hIP : 0 < r.IP) :
    (calc_pitcher_metrics r).K9 = PVal.num (r.SO / r.IP * 9) ∧
    (calc_pitcher_metrics r).BB9 = PVal.num (r.BB / r.IP * 9) ∧
    (calc_pitcher_metrics r).FIP =
      PVal.num ((13 * r.HR + 3 * (r.BB + r.HBP) - 2 * r.SO) / r.IP + FIP_CONST) ∧
    FIP_CONST = 16 / 5 ∧
    (calc_pitcher_metrics r).ERA_FIP_diff =
      PVal.num (r.ERA -
        ((13 * r.HR + 3 * (r.BB + r.HBP) - 2 * r.SO) / r.IP + FIP_CONST)) := by
  have hIP0 : r.IP ≠ 0 := ne_of_gt hIP
  refine ⟨?_, ?_, ?_, ?_, ?_⟩ <;>
    simp [calc_pitcher_metrics, pdiv, hIP0, PVal.add, PVal.sub, PVal.neg,
      PVal.mulQ, FIP_CONST]
  · norm_num
  · ring

/-- Witness for C2 at the fixture `pitcherQ` (`IP = 45`, `SO = 36`,
`BB = 9`, `HBP = 3`, `HR = 5`, `ERA = 4`). -/
theorem pitcher_rate_stats_C2_witness :
    (calc_pitcher_metrics pitcherQ).K9 = PVal.num (36 / 45 * 9) ∧
    (calc_pitcher_metrics pitcherQ).FIP =
      PVal.num ((13 * 5 + 3 * (9 + 3) - 2 * 36) / 45 + 16 / 5) := by
  have h := pitcher_rate_stats_C2 pitcherQ (by norm_num [pitcherQ, basePitcher])
  refine ⟨?_, ?_⟩
  · rw [h.1]
    norm_num [pitcherQ, basePitcher]
  · rw [h.2.2.1, h.2.2.2.1]
    norm_num [pitcherQ, basePitcher]

/-- Claim C3: the role classifier returns reliever when `SV >= 1` or
`HLD >= 1`; otherwise starter when `G > 0` and `IP/G >= 4.0`; otherwise
reliever as fallback; and the first rule short-circuits the second, so a
record with `SV >= 1` and `IP/G >= 4.0` is classified reliever. -/
theorem classify_role_C3 (r : PitcherRecord) :
    (r.SV ≥ 1 ∨ r.HLD ≥ 1 → classify_role r = Role.reliever) ∧
    (¬(r.SV ≥ 1 ∨ r.HLD ≥ 1) → r.G > 0 ∧ r.IP / r.G ≥ 4 →
      classify_role r = Role.starter) ∧
    (¬(r.SV ≥ 1 ∨ r.HLD ≥ 1) → ¬(r.G > 0 ∧ r.IP / r.G ≥ 4) →
      classify_role r = Role.reliever) ∧
    (r.SV ≥ 1 → r.IP / r.G ≥ 4 → classify_role r = Role.reliever) := by
  refine ⟨fun h => ?_, fun h1 h2 => ?_, fun h1 h2 => ?_, fun h _ => ?_⟩
  · simp [classify_role, h]
  · rw [classify_role, if_neg h1, if_pos]
    exact ⟨h2.1, le_trans (by norm_num) h2.2⟩
  · rw [classify_role, if_neg h1, if_neg]
    intro hc
    exact h2 ⟨hc.1, le_trans (by norm_num) hc.2⟩
  · simp [classify_role, Or.inl h]

/-- Witness for C3 at the spec's three vectors and the short-circuit
fixture: `(SV=5,G=50,IP=50)` and `(SV=3,G=10,IP=50)` are relievers,
`(G=20,IP=120)` is a starter, `(G=20,IP=40)` falls back to reliever. -/
theorem classify_role_C3_witness :
    classify_role pitcherSV5 = Role.reliever ∧
    classify_role pitcherStarter = Role.starter ∧
    classify_role pitcherFallback = Role.reliever ∧
    classify_role pitcherBoth = Role.reliever := by
  refine ⟨(classify_role_C3 pitcherSV5).1 ?_,
    (classify_role_C3 pitcherStarter).2.1 ?_ ?_,
    (classify_role_C3 pitcherFallback).2.2.1 ?_ ?_,
    (classify_role_C3 pitcherBoth).2.2.2 ?_ ?_⟩ <;>
    norm_num [pitcherSV5, pitcherStarter, pitcherFallback, pitcherBoth,
      basePitcher]

/-- Unfolding of `splitWs` one cons step at a time. -/
lemma splitWs_cons (c : Char) (rest : List Char) :
    splitWs (c :: rest) = if c.isWhitespace then splitWs rest
      else match splitWs rest with
        | [] => [[c]]
        | p :: ps =>
            if (rest.headD ' ').isWhitespace then [c] :: p :: ps
            else (c :: p) :: ps := rfl

/-- Dropping leading whitespace from a list whose head is not whitespace is
the identity. -/
lemma dropWhile_ws_eq_self (l : List Char) (h : ∀ c ∈ l.head?, ¬c.isWhitespace) :
    l.dropWhile Char.isWhitespace = l := by
  cases l with
  | nil => rfl
  | cons c t =>
      have hc : ¬c.isWhitespace := h c (by simp)
      simp [List.dropWhile_cons, hc]

/-- Stripping a list with non-whitespace first and last characters is the
identity. -/
lemma listTrim_eq_self (l : List Char) (h1 : ∀ c ∈ l.head?, ¬c.isWhitespace)
    (h2 : ∀ c ∈ l.reverse.head?, ¬c.isWhitespace) : listTrim l = l := by
  unfold listTrim
  rw [dropWhile_ws_eq_self l h1, dropWhile_ws_eq_self l.reverse h2,
    List.reverse_reverse]

/-- A non-empty whitespace-free list is a single `split()` token. -/
lemma splitWs_single (t : List Char) (hne : t ≠ [])
    (hw : ∀ c ∈ t, ¬c.isWhitespace) : splitWs t = [t] := by
  induction t with
  | nil => exact absurd rfl hne
  | cons c t ih =>
      have hc : ¬c.isWhitespace := hw c (by simp)
      cases t with
      | nil => simp [splitWs_cons, hc, splitWs]
      | cons d t' =>
          have hd : ¬d.isWhitespace := hw d (by simp)
          have ht : splitWs (d :: t') = [d :: t'] := by
            refine ih ?_ ?_
            · simp
            · intro x hxm
              exact hw x (List.mem_cons_of_mem _ hxm)
          rw [splitWs_cons, ht, if_neg hc]
          simp [hd]

/-- A whitespace-free token followed by a space starts the `split()` token
list. -/
lemma splitWs_append (t1 t2 : List Char) (h1 : t1 ≠ [])
    (hw1 : ∀ c ∈ t1, ¬c.isWhitespace) :
    splitWs (t1 ++ ' ' :: t2) = t1 :: splitWs t2 := by
  induction t1 with
  | nil => exact absurd rfl h1
  | cons c t1' ih =>
      have hc : ¬c.isWhitespace := hw1 c (by simp)
      cases t1' with
      | nil =>
          have hsp : splitWs (' ' :: t2) = splitWs t2 := by
            rw [splitWs_cons, if_pos (by decide)]
          rw [List.singleton_append, splitWs_cons, hsp, if_neg hc]
          cases hsw : splitWs t2 with
          | nil => simp
          | cons p ps => simp
      | cons d t1'' =>
          have hd : ¬d.isWhitespace := hw1 d (by simp)
          have ht : splitWs ((d :: t1'') ++ ' ' :: t2) = (d :: t1'') :: splitWs t2 := by
            refine ih ?_ ?_
            · simp
            · intro x hxm
              exact hw1 x (List.mem_cons_of_mem _ hxm)
          rw [List.cons_append, splitWs_cons, ht, if_neg hc]
          simp [hd]

/-- On a two-token input the parser adds the parsed whole part to the
fraction-table value of the second token, and propagates a `float()`
failure on the first token. -/
lemma parse_ip_two_token (s : String) (t1 t2 : List Char)
    (hs : s.toList = t1 ++ ' ' :: t2) (h1 : t1 ≠ []) (h2 : t2 ≠ [])
    (hw1 : ∀ c ∈ t1, ¬c.isWhitespace) (hw2 : ∀ c ∈ t2, ¬c.isWhitespace) :
    parse_ip s = (pyFloatChars t1).map (fun w => w + frac_map_get t2) := by
  have htrim : listTrim (t1 ++ ' ' :: t2) = t1 ++ ' ' :: t2 := by
    refine listTrim_eq_self _ ?_ ?_
    · intro c hc
      obtain ⟨a, t1', rfl⟩ := List.exists_cons_of_ne_nil h1
      simp only [List.cons_append, List.head?_cons, Option.mem_def,
        Option.some.injEq] at hc
      exact hc ▸ hw1 a (by simp)
    · intro c hc
      rw [List.head?_reverse, List.getLast?_append_cons] at hc
      obtain ⟨a, t2', rfl⟩ := List.exists_cons_of_ne_nil h2
      rw [List.getLast?_cons_cons] at hc
      exact hw2 c (List.mem_of_mem_getLast? hc)
  have hsplit : splitWs (t1 ++ ' ' :: t2) = [t1, t2] := by
    rw [splitWs_append t1 t2 h1 hw1, splitWs_single t2 h2 hw2]
  have hcont : (t1 ++ ' ' :: t2).contains ' ' = true := by
    simp
  unfold parse_ip
  rw [hs, htrim, if_pos hcont, hsplit]
  cases hpf : pyFloatChars t1 with
  | none => simp [hpf]
  | some w => simp [hpf]

/-- On a non-empty whitespace-free input the parser is exactly the
`float()` conversion, `ValueError` included. -/
lemma parse_ip_bare (s : String) (t : List Char) (hs : s.toList = t)
    (h : t ≠ []) (hw : ∀ c ∈ t, ¬c.isWhitespace) :
    parse_ip s = pyFloatChars t := by
  have htrim : listTrim t = t := by
    refine listTrim_eq_self t (fun c hc => hw c (List.mem_of_mem_head? hc)) ?_
    intro c hc
    rw [List.head?_reverse] at hc
    exact hw c (List.mem_of_mem_getLast? hc)
  have hsp : ' ' ∉ t := fun hmem => hw ' ' hmem (by decide)
  have hcont : t.contains ' ' = false := by simpa using hsp
  unfold parse_ip
  rw [hs, htrim]
  simp [hcont, h, hsp]

/-- On input that strips to nothing the parser returns `0.0`. -/
lemma parse_ip_trim_empty (s : String) (h : listTrim s.toList = []) :
    parse_ip s = some 0 := by
  unfold parse_ip
  rw [h]
  simp

/-- Claim C4 counterexample: on the unparseable text `"abc"` the source's
`float(ip_str)` call raises `ValueError` (modelled as `none`); the parser
does not return `0.0` there, contradicting the claim that any unparseable
text yields `0.0` and never an exception. -/
theorem parse_ip_C4_cex : parse_ip "abc" = none ∧ parse_ip "abc" ≠ some 0 := by
  have h : parse_ip "abc" = none := by
    simp +decide [parse_ip, listTrim, splitWs, pyFloatChars, splitDot,
      frac_map_get, digitsVal]
  exact ⟨h, by simp [h]⟩

/-- Claim C4 as amended: for a two-token string the parser returns
`whole + (1/3 : 0.33, 2/3 : 0.67, other token : 0.0)` when the whole token
parses under `float()`, and raises `ValueError` (modelled `none`) when it
does not; a bare token is exactly the `float()` conversion — its numeric
value when numeric, `ValueError` when unparseable (rather than `0.0`);
input that strips to empty yields `0.0`; in particular `"0"`, `"42"`,
`"10 1/3"`, `"10 2/3"`, `""`, `"10 1/2"`, `"abc"` evaluate to `0.0`,
`42.0`, `10.33`, `10.67`, `0.0`, `10.0` and an error respectively. -/
theorem parse_ip_C4_amended :
    (∀ (s : String) (t1 t2 : List Char), s.toList = t1 ++ ' ' :: t2 →
      t1 ≠ [] → t2 ≠ [] → (∀ c ∈ t1, ¬c.isWhitespace) →
      (∀ c ∈ t2, ¬c.isWhitespace) →
      parse_ip s = (pyFloatChars t1).map (fun w => w + frac_map_get t2)) ∧
    (∀ (s : String) (t : List Char), s.toList = t → t ≠ [] →
      (∀ c ∈ t, ¬c.isWhitespace) → parse_ip s = pyFloatChars t) ∧
    (∀ s : String, listTrim s.toList = [] → parse_ip s = some 0) ∧
    frac_map_get ('1' :: '/' :: '3' :: []) = 33 / 100 ∧
    frac_map_get ('2' :: '/' :: '3' :: []) = 67 / 100 ∧
    (∀ t : List Char, t ≠ '1' :: '/' :: '3' :: [] →
      t ≠ '2' :: '/' :: '3' :: [] → frac_map_get t = 0) ∧
    parse_ip "0" = some 0 ∧
    parse_ip "42" = some 42 ∧
    parse_ip "10 1/3" = some (1033 / 100) ∧
    parse_ip "10 2/3" = some (1067 / 100) ∧
    parse_ip "" = some 0 ∧
    parse_ip "10 1/2" = some 10 ∧
    parse_ip "abc" = none := by
  refine ⟨parse_ip_two_token, parse_ip_bare, parse_ip_trim_empty, ?_, ?_, ?_,
    ?_, ?_, ?_, ?_, ?_, ?_, ?_⟩
  · norm_num [frac_map_get]
  · norm_num [frac_map_get]
    decide
  · intro t h1 h2
    simp [frac_map_get, h1, h2]
  all_goals
    simp +decide [parse_ip, listTrim, splitWs, pyFloatChars, splitDot,
      frac_map_get, digitsVal]
  all_goals norm_num

/-- Witness for the amended C4: the general two-token clause applied at
`"10 1/3"` with tokens `10` and `1/3`. -/
theorem parse_ip_C4_amended_witness :
    parse_ip "10 1/3" =
      (pyFloatChars ('1' :: '0' :: [])).map
        (fun w => w + frac_map_get ('1' :: '/' :: '3' :: [])) :=
  parse_ip_C4_amended.1 "10 1/3" ('1' :: '0' :: []) ('1' :: '/' :: '3' :: [])
    (by decide) (by decide) (by decide) (by decide) (by decide)

/-- A key occurring in an association list has a successful lookup. -/
lemma lookup_some_of_mem_keys {l : List (String × ℚ)} {n : String}
    (h : n ∈ l.map Prod.fst) : ∃ v, l.lookup n = some v := by
  induction l with
  | nil => simp at h
  | cons kv t ih =>
      obtain ⟨k, v⟩ := kv
      simp only [List.map_cons, List.mem_cons] at h
      by_cases hk : n = k
      · exact ⟨v, by simp [List.lookup, hk]⟩
      · obtain ⟨w, hw⟩ := ih (h.resolve_left hk)
        have hbeq : (n == k) = false := beq_eq_false_iff_ne.mpr hk
        exact ⟨w, by simp [List.lookup, hbeq, hw]⟩

/-- A successful lookup means the key occurs in the association list. -/
lemma mem_keys_of_lookup_some {l : List (String × ℚ)} {n : String} {v : ℚ}
    (h : l.lookup n = some v) : n ∈ l.map Prod.fst := by
  induction l with
  | nil => simp [List.lookup] at h
  | cons kv t ih =>
      obtain ⟨k, w⟩ := kv
      by_cases hk : n = k
      · simp [hk]
      · have hbeq : (n == k) = false := beq_eq_false_iff_ne.mpr hk
        simp only [List.lookup, hbeq] at h
        exact List.mem_cons_of_mem _ (ih h)

/-- Claim C5: the cross-season comparator joins the two qualified tables on
the intersection of player names, computes `delta = valueB - valueA` for
each common player, orders the deltas ascending, and silently excludes any
player absent from either season; on the spec's example the only common
player is Kim with delta `+0.070` and Park is excluded entirely. -/
theorem fip_change_C5 :
    (∀ (a b : List (String × ℚ)) (n : String) (d : ℚ),
      (n, d) ∈ fip_change a b →
      ∃ va vb, a.lookup n = some va ∧ b.lookup n = some vb ∧ d = vb - va ∧
        n ∈ a.map Prod.fst ∧ n ∈ b.map Prod.fst) ∧
    (∀ (a b : List (String × ℚ)) (n : String),
      n ∈ a.map Prod.fst → n ∈ b.map Prod.fst →
      ∃ d, (n, d) ∈ fip_change a b) ∧
    (∀ (a b : List (String × ℚ)) (n : String),
      n ∉ a.map Prod.fst ∨ n ∉ b.map Prod.fst →
      ∀ d : ℚ, (n, d) ∉ fip_change a b) ∧
    (∀ a b : List (String × ℚ), (fip_change a b).Sorted valLe) ∧
    fip_change [("Kim", 750 / 1000)] [("Kim", 820 / 1000), ("Park", 900 / 1000)]
      = [("Kim", 70 / 1000)] ∧
    (∀ d : ℚ, ("Park", d) ∉
      fip_change [("Kim", 750 / 1000)] [("Kim", 820 / 1000), ("Park", 900 / 1000)]) := by
  have hmem : ∀ (a b : List (String × ℚ)) (n : String) (d : ℚ),
      (n, d) ∈ fip_change a b →
      ∃ va vb, a.lookup n = some va ∧ b.lookup n = some vb ∧ d = vb - va ∧
        n ∈ a.map Prod.fst ∧ n ∈ b.map Prod.fst := by
    intro a b n d h
    rw [fip_change, List.mem_insertionSort, List.mem_filterMap] at h
    obtain ⟨m, hm, hf⟩ := h
    cases hb : b.lookup m with
    | none => rw [hb] at hf; simp at hf
    | some vb =>
        cases ha : a.lookup m with
        | none => rw [hb, ha] at hf; simp at hf
        | some va =>
            rw [hb, ha] at hf
            simp only [Option.some.injEq, Prod.mk.injEq] at hf
            obtain ⟨rfl, rfl⟩ := hf
            exact ⟨va, vb, ha, hb, rfl, mem_keys_of_lookup_some ha,
              mem_keys_of_lookup_some hb⟩
  refine ⟨hmem, ?_, ?_, ?_, ?_, ?_⟩
  · intro a b n hna hnb
    obtain ⟨va, hva⟩ := lookup_some_of_mem_keys hna
    obtain ⟨vb, hvb⟩ := lookup_some_of_mem_keys hnb
    refine ⟨vb - va, ?_⟩
    rw [fip_change, List.mem_insertionSort, List.mem_filterMap]
    refine ⟨n, ?_, ?_⟩
    · rw [List.mem_filter]
      refine ⟨hna, ?_⟩
      simpa using hnb
    · rw [hva, hvb]
  · intro a b n hn d hmem2
    obtain ⟨va, vb, hva, hvb, _, hma, hmb⟩ := hmem a b n d hmem2
    rcases hn with hn | hn
    · exact hn hma
    · exact hn hmb
  · intro a b
    exact List.sorted_insertionSort valLe _
  · simp +decide [fip_change, List.insertionSort, List.orderedInsert, valLe]
    norm_num
  · intro d hd
    obtain ⟨va, _, hva, _⟩ := hmem _ _ _ _ hd
    simp [List.lookup] at hva

/-- Witness for C5: the completeness clause applied at the spec's example
tables puts Kim in the comparison. -/
theorem fip_change_C5_witness :
    ∃ d : ℚ, ("Kim", d) ∈
      fip_change [("Kim", 750 / 1000)] [("Kim", 820 / 1000), ("Park", 900 / 1000)] :=
  fip_change_C5.2.1 _ _ "Kim" (by simp) (by simp)

/-- Claim C6: `K/BB` is `SO / BB` for `BB > 0`, and for `BB = 0` it is the
tagged missing value NaN — not an infinity and not zero — distinguishable
from the genuine ratio `0` produced when `SO = 0` and `BB > 0`. -/
theorem kbb_C6 (r : PitcherRecord) :
    (0 < r.BB → (calc_pitcher_metrics r).KBB = PVal.num (r.SO / r.BB)) ∧
    (r.BB = 0 → (calc_pitcher_metrics r).KBB = PVal.nan) ∧
    (r.SO = 0 → 0 < r.BB → (calc_pitcher_metrics r).KBB = PVal.num 0) ∧
    PVal.nan ≠ PVal.num 0 ∧ PVal.nan ≠ PVal.pinf := by
  refine ⟨fun h => ?_, fun h => ?_, fun hso h => ?_, by simp, by simp⟩
  · have h0 : r.BB ≠ 0 := ne_of_gt h
    simp [calc_pitcher_metrics, PVal.div, pdiv, h0]
  · simp [calc_pitcher_metrics, h, PVal.div]
  · have h0 : r.BB ≠ 0 := ne_of_gt h
    simp [calc_pitcher_metrics, PVal.div, pdiv, h0, hso]

/-- Witness for C6 at the fixtures `pitcherBB0` (`BB = 0`, `SO = 15`) and
`pitcherSO0` (`SO = 0`, `BB = 2`): the one is NaN, the other the real
ratio `0`, and they differ. -/
theorem kbb_C6_witness :
    (calc_pitcher_metrics pitcherBB0).KBB = PVal.nan ∧
    (calc_pitcher_metrics pitcherSO0).KBB = PVal.num 0 ∧
    (calc_pitcher_metrics pitcherBB0).KBB ≠ (calc_pitcher_metrics pitcherSO0).KBB := by
  have h1 := (kbb_C6 pitcherBB0).2.1 (by norm_num [pitcherBB0, basePitcher])
  have h2 := (kbb_C6 pitcherSO0).2.2.1 (by norm_num [pitcherSO0, basePitcher])
    (by norm_num [pitcherSO0, basePitcher])
  exact ⟨h1, h2, by rw [h1, h2]; simp⟩

/-- Claim C7 counterexample: at a record with `G = 0` and `IP = 15` the
pandas division `IP / G` produces positive infinity — a finite-or-infinite
number, not an undefined/missing value — contradicting the claim that
`G = 0` yields a missing value that is not an infinite number. -/
theorem ip_per_g_C7_cex :
    (calc_pitcher_metrics pitcherG0).IP_per_G = PVal.pinf ∧
    PVal.pinf ≠ PVal.nan := by
  refine ⟨?_, by simp⟩
  simp [calc_pitcher_metrics, pdiv, pitcherG0, basePitcher]

/-- Claim C7 as amended: `IP_per_G = IP / G` when `G > 0`; when `G = 0` the
computation does not crash, but numpy float division returns positive
infinity for `IP > 0` (negative infinity for `IP < 0`) and the missing
value NaN only when `IP = 0` as well. -/
theorem ip_per_g_C7_amended (r : PitcherRecord) :
    (0 < r.G → (calc_pitcher_metrics r).IP_per_G = PVal.num (r.IP / r.G)) ∧
    (r.G = 0 → 0 < r.IP → (calc_pitcher_metrics r).IP_per_G = PVal.pinf) ∧
    (r.G = 0 → r.IP < 0 → (calc_pitcher_metrics r).IP_per_G = PVal.ninf) ∧
    (r.G = 0 → r.IP = 0 → (calc_pitcher_metrics r).IP_per_G = PVal.nan) := by
  refine ⟨fun h => ?_, fun h hip => ?_, fun h hip => ?_, fun h hip => ?_⟩
  · have h0 : r.G ≠ 0 := ne_of_gt h
    simp [calc_pitcher_metrics, pdiv, h0]
  · simp [calc_pitcher_metrics, pdiv, h, ne_of_gt hip, hip]
  · simp [calc_pitcher_metrics, pdiv, h, ne_of_lt hip, not_lt_of_lt hip]
  · simp [calc_pitcher_metrics, pdiv, h, hip]

/-- Witness for the amended C7 at `pitcherQ` (`G = 10 > 0`) and `pitcherG0`
(`G = 0`, `IP = 15 > 0`). -/
theorem ip_per_g_C7_amended_witness :
    (calc_pitcher_metrics pitcherQ).IP_per_G = PVal.num (45 / 10) ∧
    (calc_pitcher_metrics pitcherG0).IP_per_G = PVal.pinf := by
  have h1 := (ip_per_g_C7_amended pitcherQ).1 (by norm_num [pitcherQ, basePitcher])
  have h2 := (ip_per_g_C7_amended pitcherG0).2.1
    (by norm_num [pitcherG0, basePitcher]) (by norm_num [pitcherG0, basePitcher])
  refine ⟨?_, h2⟩
  rw [h1]
  norm_num [pitcherQ, basePitcher]

/-- Claim C8: a record is in the qualified output iff it is in the input
and meets the minimum-playing-time threshold — `PA >= 200` for hitters,
`IP >= 15` for pitchers — with an inclusive boundary (`PA = 199` is
excluded, `PA = 200` included), and every record of the derived tables
built from the qualified output meets the threshold. -/
theorem qualification_C8 :
    (∀ (df : List HitterRecord) (r : HitterRecord),
      r ∈ hitters_qualified df ↔ r ∈ df ∧ 200 ≤ r.PA) ∧
    (∀ (df : List PitcherRecord) (r : PitcherRecord),
      r ∈ pitchers_qualified df ↔ r ∈ df ∧ 15 ≤ r.IP) ∧
    (∀ (df : List HitterRecord) (r : HitterRecord), r.PA < 200 →
      r ∉ hitters_qualified df) ∧
    (∀ (df : List PitcherRecord) (r : PitcherRecord), r.IP < 15 →
      r ∉ pitchers_qualified df) ∧
    (∀ (df : List HitterRecord) (d : DerivedHitter),
      d ∈ calc_hitter_metrics_table (hitters_qualified df) → 200 ≤ d.base.PA) ∧
    (∀ (df : List PitcherRecord) (d : DerivedPitcher),
      d ∈ calc_pitcher_metrics_table (pitchers_qualified df) → 15 ≤ d.base.IP) ∧
    hitter199.PA = 199 ∧ hitter200.PA = 200 ∧
    hitters_qualified [hitter199, hitter200] = [hitter200] := by
  have hh : ∀ (df : List HitterRecord) (r : HitterRecord),
      r ∈ hitters_qualified df ↔ r ∈ df ∧ 200 ≤ r.PA := by
    intro df r
    simp [hitters_qualified, List.mem_filter]
  have hp : ∀ (df : List PitcherRecord) (r : PitcherRecord),
      r ∈ pitchers_qualified df ↔ r ∈ df ∧ 15 ≤ r.IP := by
    intro df r
    simp [pitchers_qualified, List.mem_filter]
  refine ⟨hh, hp, ?_, ?_, ?_, ?_, by norm_num [hitter199],
    by norm_num [hitter200], ?_⟩
  · intro df r hr hmem
    exact absurd ((hh df r).mp hmem).2 (not_le.mpr hr)
  · intro df r hr hmem
    exact absurd ((hp df r).mp hmem).2 (not_le.mpr hr)
  · intro df d hd
    simp only [calc_hitter_metrics_table, List.mem_map] at hd
    obtain ⟨r, hr, rfl⟩ := hd
    exact ((hh df r).mp hr).2
  · intro df d hd
    simp only [calc_pitcher_metrics_table, List.mem_map] at hd
    obtain ⟨r, hr, rfl⟩ := hd
    exact ((hp df r).mp hr).2
  · rw [hitters_qualified]
    rw [List.filter_cons_of_neg, List.filter_cons_of_pos, List.filter_nil]
    · exact decide_eq_true_iff.mpr (by norm_num [hitter200])
    · simp only [decide_eq_true_iff]
      norm_num [hitter199]

/-- Witness for C8 at the boundary fixtures: `PA = 199` is dropped and
`PA = 200` is kept by the hitter qualification filter. -/
theorem qualification_C8_witness :
    hitter199 ∉ hitters_qualified [hitter199, hitter200] ∧
    hitter200 ∈ hitters_qualified [hitter199, hitter200] := by
  constructor
  · intro hmem
    have h := (qualification_C8.1 [hitter199, hitter200] hitter199).mp hmem
    norm_num [hitter199] at h
  · exact (qualification_C8.1 [hitter199, hitter200] hitter200).mpr
      ⟨by simp, by norm_num [hitter200]⟩

/-- Claim C9: the derivers are pure functions that add derived columns
without altering any pre-existing field — the base record embedded in each
derived row is exactly the input row, both rowwise and tablewise. -/
theorem no_mutation_C9 :
    (∀ r : HitterRecord, (calc_hitter_metrics r).base = r) ∧
    (∀ r : PitcherRecord, (calc_pitcher_metrics r).base = r) ∧
    (∀ df : List HitterRecord,
      (calc_hitter_metrics_table df).map DerivedHitter.base = df) ∧
    (∀ df : List PitcherRecord,
      (calc_pitcher_metrics_table df).map DerivedPitcher.base = df) := by
  refine ⟨fun r => rfl, fun r => rfl, fun df => ?_, fun df => ?_⟩
  · rw [calc_hitter_metrics_table, List.map_map,
      show DerivedHitter.base ∘ calc_hitter_metrics = id from funext fun r => rfl,
      List.map_id]
  · rw [calc_pitcher_metrics_table, List.map_map,
      show DerivedPitcher.base ∘ calc_pitcher_metrics = id from funext fun r => rfl,
      List.map_id]

/-- Claim C10: every record retained by the pitcher qualification filter
has `IP >= 15 > 0`, so on the qualified table the divisions by `IP` in
`K9`, `BB9` and `FIP` always take the finite branch — the zero-denominator
branch is unreachable there. -/
theorem qualified_no_div_zero_C10 (df : List PitcherRecord)
    (r : PitcherRecord) (h : r ∈ pitchers_qualified df) :
    15 ≤ r.IP ∧ 0 < r.IP ∧
    (calc_pitcher_metrics r).K9 = PVal.num (r.SO / r.IP * 9) ∧
    (calc_pitcher_metrics r).BB9 = PVal.num (r.BB / r.IP * 9) ∧
    (calc_pitcher_metrics r).FIP =
      PVal.num ((13 * r.HR + 3 * (r.BB + r.HBP) - 2 * r.SO) / r.IP + FIP_CONST) := by
  have h15 : 15 ≤ r.IP := by
    simp only [pitchers_qualified, List.mem_filter, decide_eq_true_iff] at h
    exact h.2
  have hpos : 0 < r.IP := lt_of_lt_of_le (by norm_num) h15
  have h0 : r.IP ≠ 0 := ne_of_gt hpos
  refine ⟨h15, hpos, ?_, ?_, ?_⟩ <;>
    simp [calc_pitcher_metrics, pdiv, h0, PVal.add, PVal.mulQ]

/-- Witness for C10 at the fixture table `[pitcherQ]` (`IP = 45`). -/
theorem qualified_no_div_zero_C10_witness :
    0 < pitcherQ.IP ∧
    (calc_pitcher_metrics pitcherQ).K9 = PVal.num (36 / 45 * 9) := by
  have h := qualified_no_div_zero_C10 [pitcherQ] pitcherQ
    (List.mem_filter.mpr ⟨by simp,
      decide_eq_true_iff.mpr (by norm_num [pitcherQ, basePitcher])⟩)
  refine ⟨h.2.1, ?_⟩
  rw [h.2.2.1]
  norm_num [pitcherQ, basePitcher]
